import Mathlib

/-!
Verification of the research_assistant_chatbot repository.

This file gives a shallow embedding of the core logic of the repository
(`core/memory.py`, `core/chatbot.py`, `core/rag_pipeline.py`,
`core/prompt_builder.py`, `services/chunker.py`, `utils/text_helpers.py`)
and proves or refutes the frozen claims about it.

External collaborators (the LLM client, the tiktoken encoder, the HuggingFace
embedder, the Chroma vector store, LangChain's text splitter) are modelled as
explicit function parameters (oracles); everything written in the repository
itself is translated definitionally from the Python source.
-/

namespace RAC

/-- A chat message as stored by `MemoryManager.add_turn`: a Python dict with
keys "role" and "content" (`memory.py` lines 31-32). -/
structure Msg where
  role : String
  content : String
deriving DecidableEq

/-- Appending one element to a `collections.deque` with a `maxlen` bound:
the element is appended on the right and, if the length now exceeds `maxlen`,
elements are dropped from the left. -/
def dequeAppend {α : Type} (maxlen : Nat) (h : List α) (m : α) : List α :=
  (h ++ [m]).drop ((h ++ [m]).length - maxlen)

/-- State of `MemoryManager` (`memory.py` lines 17-27): a deque `history` with
`maxlen = window_size * 2`, a rolling `summary` string and a `token_limit`. -/
structure MemoryManager where
  windowSize : Nat
  tokenLimit : Nat
  history : List Msg
  summary : String
deriving DecidableEq

/-- `MemoryManager.__init__`: empty deque of capacity `window_size * 2` and
empty summary. -/
def MemoryManager.init (windowSize tokenLimit : Nat) : MemoryManager :=
  { windowSize := windowSize, tokenLimit := tokenLimit, history := [], summary := "" }

/-- `MemoryManager.add_turn` (`memory.py` lines 29-32): append the user dict
then the assistant dict to the bounded deque. -/
def MemoryManager.add_turn (mm : MemoryManager) (userMessage assistantResponse : String) :
    MemoryManager :=
  { mm with
    history :=
      dequeAppend (mm.windowSize * 2)
        (dequeAppend (mm.windowSize * 2) mm.history { role := "user", content := userMessage })
        { role := "assistant", content := assistantResponse } }

/-- A single-quote character, written via its code point. -/
def sq : String := (Char.ofNat 39).toString

/-- Python `str()` of a dict `\x7b'role': r, 'content': c\x7d` as built by
`add_turn` (the repr Python prints for such a dict of two string values). -/
def dictRepr (m : Msg) : String :=
  "\x7b" ++ sq ++ "role" ++ sq ++ ": " ++ sq ++ m.role ++ sq ++ ", "
    ++ sq ++ "content" ++ sq ++ ": " ++ sq ++ m.content ++ sq ++ "\x7d"

/-- The message types `messages_to_string` (`text_helpers.py`) distinguishes:
LangChain `SystemMessage`/`HumanMessage`/`AIMessage`, or anything else (in this
repository: the plain dicts stored by `MemoryManager`), which lands in the
"UNKNOWN" fallback branch. -/
inductive LCMessage where
  | system (content : String)
  | human (content : String)
  | ai (content : String)
  | pyDict (m : Msg)
deriving DecidableEq

/-- The separator line `"=" * 80` from `text_helpers.py` line 61. -/
def sep80 : String := String.mk (List.replicate 80 (Char.ofNat 61))

/-- Loop body of `messages_to_string`: walks the messages carrying the
enumeration index `i` and the running `user_question_count`, producing the
list of blocks that is finally joined with blank lines. A dict (the only
shape `MemoryManager` ever stores) has no `content` attribute, so
`getattr(msg, 'content', str(msg))` yields the dict's `str()`. -/
def messagesToStringAux : Nat → Nat → List LCMessage → List String
  | _, _, [] => []
  | i, count, msg :: rest =>
    match msg with
    | .system c => ("SYSTEM: " ++ c) :: messagesToStringAux (i + 1) count rest
    | .human c =>
        (if 0 < i then [sep80] else [])
          ++ ("USER Q" ++ toString (count + 1) ++ ": " ++ c)
            :: messagesToStringAux (i + 1) (count + 1) rest
    | .ai c => ("ASSISTANT: " ++ c) :: messagesToStringAux (i + 1) count rest
    | .pyDict m => ("UNKNOWN (dict): " ++ dictRepr m) :: messagesToStringAux (i + 1) count rest

/-- `messages_to_string` (`text_helpers.py` lines 35-72). -/
def messages_to_string (messages : List LCMessage) : String :=
  String.intercalate "\n\n" (messagesToStringAux 0 0 messages)

/-- Python `s or default` for strings: the default when `s` is empty (falsy). -/
def pyOr (s dflt : String) : String := if s = "" then dflt else s

/-- The history as `messages_to_string` receives it: a list of plain dicts. -/
def MemoryManager.historyMessages (mm : MemoryManager) : List LCMessage :=
  mm.history.map LCMessage.pyDict

/-- `MemoryManager.get_combined_context` (`memory.py` lines 38-46). -/
def MemoryManager.get_combined_context (mm : MemoryManager) : String :=
  "Conversation Summary:\n" ++ pyOr mm.summary "No summary yet." ++ "\n\n"
    ++ "Recent Conversation:\n" ++ messages_to_string mm.historyMessages

/-- Python `len(text.split())`: number of maximal whitespace-free words. -/
def pyWordCount (text : String) : Nat :=
  ((text.split fun c => c.isWhitespace).filter fun w => w ≠ "").length

/-- `count_tokens` (`text_helpers.py` lines 13-32). The tiktoken encoding is an
external capability: `encoder = some e` models a model whose encoding tiktoken
knows, `none` the exception path, which falls back to
`int(len(text.split()) * 1.3)`, i.e. word count times 13 over 10, truncated. -/
def count_tokens (encoder : Option (String → Nat)) (text : String) : Nat :=
  match encoder with
  | some enc => enc text
  | none => pyWordCount text * 13 / 10

/-- The trimming `while` loop of `MemoryManager.update_summary` (`memory.py`
lines 64-69): while the rendered history exceeds the token limit and more than
two messages remain, pop the oldest message and recount. -/
def trimHistory (encoder : Option (String → Nat)) (tokenLimit : Nat) (h : List Msg) :
    List Msg :=
  if tokenLimit < count_tokens encoder (messages_to_string (h.map LCMessage.pyDict))
      ∧ 2 < h.length then
    trimHistory encoder tokenLimit (h.drop 1)
  else h
termination_by h.length
decreasing_by simp only [List.length_drop]; omega

/-- `MemoryManager.update_summary` (`memory.py` lines 48-90). The LLM is an
oracle `llm : String → String` mapping the trimmed transcript (the only varying
part of the summarization request) to the response `content`; the code then
strips it, appends it to the summary wrapped in newlines, and clears the
history. Returns the new state and the Python return value
(`None` when there was nothing to summarize). -/
def MemoryManager.update_summary (mm : MemoryManager) (encoder : Option (String → Nat))
    (llm : String → String) : MemoryManager × Option String :=
  let h := trimHistory encoder mm.tokenLimit mm.history
  if h.isEmpty then
    ({ mm with history := h }, none)
  else
    let text := messages_to_string (h.map LCMessage.pyDict)
    let newSummary := (llm text).trim
    ({ mm with history := [], summary := mm.summary ++ "\n" ++ newSummary ++ "\n" },
      some newSummary)

/-- One externally invokable `MemoryManager` operation. -/
inductive MemOp where
  | addTurn (u a : String)
  | updateSummary (encoder : Option (String → Nat)) (llm : String → String)

/-- Apply one operation to a `MemoryManager`. -/
def MemoryManager.step (mm : MemoryManager) : MemOp → MemoryManager
  | .addTurn u a => mm.add_turn u a
  | .updateSummary enc llm => (mm.update_summary enc llm).1

/-- Run a sequence of operations. -/
def MemoryManager.run (mm : MemoryManager) (ops : List MemOp) : MemoryManager :=
  ops.foldl MemoryManager.step mm

/-- Modelled on the spec wording of `maybe_summarize`, for comparison with
`update_summary`: stop evicting as soon as the transcript fits the budget, or
as soon as no more than one turn-pair (two messages) remains. -/
def specEvict (encoder : Option (String → Nat)) (tokenLimit : Nat) (turns : List Msg) :
    List Msg :=
  if count_tokens encoder (messages_to_string (turns.map LCMessage.pyDict)) ≤ tokenLimit then
    turns
  else if turns.length ≤ 2 then turns
  else specEvict encoder tokenLimit turns.tail
termination_by turns.length
decreasing_by simp only [List.length_tail]; omega

/-- Modelled on the spec wording of `maybe_summarize`: render and count, evict
while over budget, skip (returning nothing) when no turns remain, otherwise
summarize the remaining transcript, append the fragment to the summary as a
new paragraph, and clear the window. -/
def spec_maybe_summarize (encoder : Option (String → Nat)) (llm : String → String)
    (mm : MemoryManager) : MemoryManager × Option String :=
  let remaining := specEvict encoder mm.tokenLimit mm.history
  if remaining = [] then
    ({ mm with history := remaining }, none)
  else
    let transcript := messages_to_string (remaining.map LCMessage.pyDict)
    let fragment := (llm transcript).trim
    ({ mm with history := [], summary := mm.summary ++ "\n" ++ fragment ++ "\n" },
      some fragment)

/-- Flatten a list of (user, assistant) turns into the message sequence that
`add_turn` feeds to the deque. -/
def msgsOfTurns (turns : List (String × String)) : List Msg :=
  turns.foldr
    (fun t acc => { role := "user", content := t.1 } :: { role := "assistant", content := t.2 } :: acc)
    []

/-- Call `add_turn` once per (user, assistant) pair, in order. -/
def MemoryManager.runTurns (mm : MemoryManager) (turns : List (String × String)) :
    MemoryManager :=
  turns.foldl (fun acc t => acc.add_turn t.1 t.2) mm

/-- A metadata dictionary, as stored with chunks in the vector store. -/
abbrev Metadata : Type := List (String × String)

/-- One retrieved result as built by `RAGPipeline.query` (`rag_pipeline.py`
lines 123-128): content, metadata (an empty dict when missing) and similarity
(`1.0 - distance`, or `None` when the distance is missing). Distances and
similarities are modelled as rationals. -/
structure RetrievedResult where
  content : String
  metadata : Metadata
  similarity : Option ℚ
deriving DecidableEq

/-- The `format_context` step of `Chatbot._build_runnable_chain` (`chatbot.py`
lines 68-74): `"\n\n".join(f"Chunk \x7bi + 1\x7d:\n\x7bchunk\x7d" ...)` over the
retrieved results. `render` stands for Python's `str()` on a result dict. An
empty retrieval yields the empty string, with no placeholder. -/
def formatContext (render : RetrievedResult → String) (chunks : List RetrievedResult) :
    String :=
  String.intercalate "\n\n"
    (chunks.enum.map fun ic => "Chunk " ++ toString (ic.1 + 1) ++ ":\n" ++ render ic.2)

/-- The prompt template of `Chatbot._build_runnable_chain` (`chatbot.py` lines
77-86), with its literal indentation, formatted with the three variables. -/
def promptTemplate (systemPrompt formattedContext query : String) : String :=
  "\n        System instructions:\n        " ++ systemPrompt
    ++ "\n\n        Retrieved context:\n        " ++ formattedContext
    ++ "\n\n        User question:\n        " ++ query
    ++ "\n        "

/-- The structured response of `Chatbot.ask` (`chatbot.py` lines 114-121),
minus the wall-clock timestamp. -/
structure AskResult where
  query : String
  response : String
  modelName : String
deriving DecidableEq

/-- `Chatbot.ask` (`chatbot.py` lines 94-121) together with the chain built by
`_build_runnable_chain` (lines 46-91). Oracles: `retrieval` is
`self.rag.query(·, top_k=5)`, `render` is Python `str()` on a result dict,
`llm` maps the formatted prompt to the response `content`, `modelName` is
`getattr(self.llm, "model", "unknown")`. The `MemoryManager` state `mm` is
threaded through to expose what `ask` does with it: the method body never
reads or writes it (the `Chatbot` class holds no memory manager at all), so it
is returned unchanged. -/
def Chatbot.ask (retrieval : String → List RetrievedResult)
    (render : RetrievedResult → String) (llm : String → String)
    (systemPrompt modelName : String) (mm : MemoryManager) (userQuery : String) :
    AskResult × MemoryManager :=
  let chunks := retrieval userQuery
  let formattedContext := formatContext render chunks
  let prompt := promptTemplate systemPrompt formattedContext userQuery
  let response := llm prompt
  ({ query := userQuery, response := response, modelName := modelName }, mm)

/-- A publication dict as consumed by `Chunker.split_publications`
(`chunker.py` lines 37-75); `none` models an absent key. -/
structure Publication where
  id : Option String
  username : Option String
  license : Option String
  title : Option String
  publication_description : Option String
deriving DecidableEq

/-- The metadata dict attached to each chunk (`chunker.py` lines 65-71). -/
structure ChunkMetadata where
  id : String
  username : Option String
  license : Option String
  title : String
  chunk_id : String
deriving DecidableEq

/-- One chunk produced by `Chunker.split_publications`. -/
structure Chunk where
  content : String
  metadata : ChunkMetadata
deriving DecidableEq

/-- `Chunker.split_publications` (`chunker.py` lines 37-75). The LangChain
`RecursiveCharacterTextSplitter` is an external capability, passed as
`splitText`. Missing keys default as in the source: `id` to `"unknown"`,
`title` to `"Untitled"`, `publication_description` to `""`. Each chunk gets
`chunk_id = f"\x7bpub_id\x7d_\x7bi\x7d"` with `i` the enumeration index. -/
def split_publications (splitText : String → List String) (publications : List Publication) :
    List Chunk :=
  publications.foldr
    (fun pub acc =>
      let pubId := pub.id.getD "unknown"
      let title := pub.title.getD "Untitled"
      let description := pub.publication_description.getD ""
      let chunks := splitText description
      (chunks.enum.map fun ic =>
        { content := ic.2
          metadata :=
            { id := pubId, username := pub.username, license := pub.license, title := title
              chunk_id := pubId ++ "_" ++ toString ic.1 } }) ++ acc)
    []

/-- The chunk ids `split_publications` assigns, in order. -/
def chunkIds (splitText : String → List String) (publications : List Publication) :
    List String :=
  (split_publications splitText publications).map fun c => c.metadata.chunk_id

/-- The vector store contents: one record per stored chunk (id, document,
metadata, embedding). Only used to observe whether `ingest_publications`
mutates the store. -/
structure Store where
  records : List (String × String × ChunkMetadata × List ℚ)
deriving DecidableEq

/-- `RAGPipeline.ingest_publications` (`rag_pipeline.py` lines 55-92).
Oracles: `splitText` (the text splitter), `embed`
(`EmbeddingService.embed_documents`) and `addChunks`
(`VectorDatabase.add_chunks`, i.e. `collection.add`). The Python function is
annotated `-> None` and ends without a `return` value on both paths, which the
second component `Option Nat` records as `none`; on empty input it returns
before touching the store. -/
def ingest_publications (splitText : String → List String)
    (embed : List String → List (List ℚ))
    (addChunks : List String → List String → List ChunkMetadata → List (List ℚ) → Store → Store)
    (store : Store) (publications : List Publication) : Store × Option Nat :=
  if publications.isEmpty then
    (store, none)
  else
    let chunks := split_publications splitText publications
    let texts := chunks.map fun c => c.content
    let metadatas := chunks.map fun c => c.metadata
    let ids := metadatas.map fun m => m.chunk_id
    let embeddings := embed texts
    (addChunks ids texts metadatas embeddings store, none)

/-- A raw Chroma query response as `RAGPipeline.query` receives it
(`rag_pipeline.py` lines 115-120): each field is a dict entry (absent when
`none`) holding one inner list per query vector. -/
structure QueryResponse where
  documents : Option (List (List String))
  metadatas : Option (List (List Metadata))
  distances : Option (List (List ℚ))

/-- Python `results.get(key, [[]])[0]`: the default `[[]]` applies only when
the key is absent; indexing `[0]` into a present-but-empty outer list raises
`IndexError`, modelled as `none`. -/
def pyGetFirst {α : Type} (field : Option (List (List α))) : Option (List α) :=
  match field with
  | none => some []
  | some outer => outer.head?

/-- The result-formatting loop of `RAGPipeline.query` (`rag_pipeline.py` lines
117-130): one entry per document, with
`metadatas[i] if i < len(metadatas) else \x7b\x7d` and
`1.0 - distances[i] if i < len(distances) else None`. -/
def formatQueryResults (results : QueryResponse) : Option (List RetrievedResult) := do
  let docs ← pyGetFirst results.documents
  let metadatas ← pyGetFirst results.metadatas
  let distances ← pyGetFirst results.distances
  some (docs.enum.map fun ic =>
    { content := ic.2
      metadata := metadatas[ic.1]?.getD ∅
      similarity := distances[ic.1]?.map fun d => 1 - d })

/-- Modelled on the spec wording for `RAGPipeline.query`: one result per
returned document; similarity is one minus the document's distance; a missing
metadata entry defaults to an empty mapping; a missing distance defaults to a
null similarity. -/
def specResults : List String → List Metadata → List ℚ → List RetrievedResult
  | [], _, _ => []
  | c :: cs, metadatas, distances =>
    { content := c
      metadata := metadatas.headD ∅
      similarity := distances.head?.map fun d => 1 - d }
      :: specResults cs metadatas.tail distances.tail

/-- A config value for an optional prompt section: Python allows a string or a
list of strings (`prompt_builder.py` lines 20-34). -/
inductive PromptValue where
  | str (s : String)
  | list (items : List String)
deriving DecidableEq

/-- The prompt config dict consumed by `build_system_prompt_from_config`
(`prompt_builder.py` lines 36-72); `none` models an absent key. -/
structure SystemPromptConfig where
  role : Option String
  instruction : Option PromptValue
  output_constraints : Option PromptValue
  style_or_tone : Option PromptValue
  output_format : Option PromptValue
deriving DecidableEq

/-- `lowercase_first_char` (`prompt_builder.py` lines 9-18). -/
def lowercase_first_char (text : String) : String :=
  match text.data with
  | [] => text
  | c :: rest => String.mk (c.toLower :: rest)

/-- `format_prompt_section` (`prompt_builder.py` lines 20-34): lead-in, a
newline, then the value — bulleted lines for a list, verbatim for a string. -/
def format_prompt_section (leadIn : String) (value : PromptValue) : String :=
  leadIn ++ "\n"
    ++ match value with
       | .list items => String.intercalate "\n" (items.map fun item => "- " ++ item)
       | .str s => s

/-- Python truthiness of an optional config value, as tested by
`if value := config.get(key)`: absent keys, empty strings and empty lists are
falsy. -/
def truthyValue : Option PromptValue → Option PromptValue
  | none => none
  | some (.str s) => if s = "" then none else some (.str s)
  | some (.list items) => if items = [] then none else some (.list items)

/-- Python truthiness of `config.get("role")`. -/
def pyTruthyStr : Option String → Option String
  | none => none
  | some s => if s = "" then none else some s

/-- The zero-or-one prompt parts contributed by one optional section. -/
def sectionPart (leadIn : String) (value : Option PromptValue) : List String :=
  match truthyValue value with
  | none => []
  | some v => [format_prompt_section leadIn v]

/-- `build_system_prompt_from_config` (`prompt_builder.py` lines 36-72):
`ValueError` when `role` is falsy (modelled as `Except.error ()`), otherwise
the identity sentence followed by the four optional sections, in source order,
joined with blank lines. -/
def build_system_prompt_from_config (config : SystemPromptConfig) :
    Except Unit String :=
  match pyTruthyStr config.role with
  | none => .error ()
  | some role =>
    let parts := ("You are " ++ lowercase_first_char role.trim)
      :: (sectionPart "Your Instruction:" config.instruction
        ++ sectionPart "Follow these important guidelines:" config.output_constraints
        ++ sectionPart "Communication style:" config.style_or_tone
        ++ sectionPart "Response formatting:" config.output_format)
    .ok (String.intercalate "\n\n" parts)

/-- Modelled on the spec wording for the claim about the system prompt: one
optional block, omitted entirely when absent or empty, introduced by its fixed
lead-in, list values rendered as a bulleted list, string values verbatim. -/
def specBlock (leadIn : String) (value : Option PromptValue) : List String :=
  match value with
  | none => []
  | some (.str s) => if s = "" then [] else [leadIn ++ "\n" ++ s]
  | some (.list items) =>
      if items = [] then []
      else [leadIn ++ "\n" ++ String.intercalate "\n" (items.map fun item => "- " ++ item)]

/-- Modelled on the spec wording: the blocks after the identity sentence, in
fixed order — instruction, constraints, tone, format. -/
def specBlocks (config : SystemPromptConfig) : List String :=
  specBlock "Your Instruction:" config.instruction
    ++ specBlock "Follow these important guidelines:" config.output_constraints
    ++ specBlock "Communication style:" config.style_or_tone
    ++ specBlock "Response formatting:" config.output_format

/-- The effective publication id used by the chunker: the `id` key, defaulting
to `"unknown"` when absent (`chunker.py` line 54). -/
def effectiveId (pub : Publication) : String := pub.id.getD "unknown"

/-- The chunk id format `f"\x7bpub_id\x7d_\x7bi\x7d"` (`chunker.py` line 70). -/
def encodeChunkId (pubId : String) (i : Nat) : String := pubId ++ "_" ++ toString i

theorem foldl_dequeAppend {α : Type} (cap : Nat) (msgs : List α) :
    msgs.foldl (dequeAppend cap) [] = msgs.drop (msgs.length - cap) := by
  induction msgs using List.reverseRecOn with
  | nil => simp
  | append_singleton xs x ih =>
    rw [List.foldl_append, List.foldl_cons, List.foldl_nil, ih]
    unfold dequeAppend
    rw [← List.drop_append_of_le_length (Nat.sub_le xs.length cap), List.drop_drop]
    congr 1
    simp only [List.length_drop, List.length_append, List.length_singleton]
    omega

theorem msgsOfTurns_cons (t : String × String) (ts : List (String × String)) :
    msgsOfTurns (t :: ts)
      = { role := "user", content := t.1 }
        :: { role := "assistant", content := t.2 } :: msgsOfTurns ts := rfl

theorem length_msgsOfTurns (turns : List (String × String)) :
    (msgsOfTurns turns).length = 2 * turns.length := by
  induction turns with
  | nil => rfl
  | cons t ts ih => rw [msgsOfTurns_cons]; simp only [List.length_cons, ih]; omega

theorem runTurns_history (turns : List (String × String)) (mm : MemoryManager) :
    (mm.runTurns turns).history
        = (msgsOfTurns turns).foldl (dequeAppend (mm.windowSize * 2)) mm.history
      ∧ (mm.runTurns turns).windowSize = mm.windowSize := by
  induction turns generalizing mm with
  | nil => exact ⟨rfl, rfl⟩
  | cons t ts ih =>
    have hstep : mm.runTurns (t :: ts) = (mm.add_turn t.1 t.2).runTurns ts := rfl
    obtain ⟨h1, h2⟩ := ih (mm.add_turn t.1 t.2)
    rw [hstep]
    refine ⟨?_, h2⟩
    rw [h1, msgsOfTurns_cons, List.foldl_cons, List.foldl_cons]
    rfl

/-- Claim C4: the recent-turns buffer is a FIFO sliding window of capacity
`2 × window_size`; in general the buffer holds exactly the most recent
`2 × window_size` of the appended messages, and after `w + 1` calls to
`add_turn` on a fresh manager the oldest pair has been evicted, leaving the
`2 × w` most recent messages. -/
theorem spec_c4_sliding_window (w tl : Nat) (turns : List (String × String))
    (hlen : turns.length = w + 1) :
    (∀ anyTurns : List (String × String),
      ((MemoryManager.init w tl).runTurns anyTurns).history
        = (msgsOfTurns anyTurns).drop ((msgsOfTurns anyTurns).length - 2 * w))
    ∧ ((MemoryManager.init w tl).runTurns turns).history = (msgsOfTurns turns).drop 2
    ∧ ((MemoryManager.init w tl).runTurns turns).history.length = 2 * w := by
  have hgen : ∀ anyTurns : List (String × String),
      ((MemoryManager.init w tl).runTurns anyTurns).history
        = (msgsOfTurns anyTurns).drop ((msgsOfTurns anyTurns).length - 2 * w) := by
    intro anyTurns
    obtain ⟨h1, _⟩ := runTurns_history anyTurns (MemoryManager.init w tl)
    rw [h1]
    show (msgsOfTurns anyTurns).foldl (dequeAppend (w * 2)) [] = _
    rw [foldl_dequeAppend]
    congr 1
    omega
  refine ⟨hgen, ?_, ?_⟩
  · rw [hgen turns]
    congr 1
    rw [length_msgsOfTurns, hlen]
    omega
  · rw [hgen turns]
    simp only [List.length_drop, length_msgsOfTurns, hlen]
    omega

theorem spec_c4_witness :
    (([("a", "b"), ("c", "d")] : List (String × String)).length = 1 + 1)
    ∧ (((MemoryManager.init 1 2500).runTurns [("a", "b"), ("c", "d")]).history
          = (msgsOfTurns [("a", "b"), ("c", "d")]).drop 2
        ∧ ((MemoryManager.init 1 2500).runTurns [("a", "b"), ("c", "d")]).history.length
          = 2 * 1) :=
  ⟨by decide, (spec_c4_sliding_window 1 2500 [("a", "b"), ("c", "d")] (by decide)).2⟩

theorem trimHistory_ne_nil (enc : Option (String → Nat)) (limit : Nat) :
    ∀ (n : Nat) (h : List Msg), h.length ≤ n → h ≠ [] → trimHistory enc limit h ≠ [] := by
  intro n
  induction n with
  | zero =>
    intro h hle hne
    exact absurd (List.eq_nil_of_length_eq_zero (Nat.le_zero.mp hle)) hne
  | succ n ih =>
    intro h hle hne
    rw [trimHistory]
    split
    · next hcond =>
      refine ih (h.drop 1) ?_ ?_
      · simp only [List.length_drop]; omega
      · have : 2 < h.length := hcond.2
        intro hnil
        have := congrArg List.length hnil
        simp only [List.length_drop, List.length_nil] at this
        omega
    · exact hne

theorem summary_le_step (mm : MemoryManager) (op : MemOp) :
    mm.summary.length ≤ (mm.step op).summary.length := by
  cases op with
  | addTurn u a => exact Nat.le_refl _
  | updateSummary enc llm =>
    show mm.summary.length ≤ (mm.update_summary enc llm).1.summary.length
    unfold MemoryManager.update_summary
    dsimp only
    split
    · exact Nat.le_refl _
    · simp only [String.length_append]
      omega

theorem summary_monotone (mm : MemoryManager) (ops : List MemOp) :
    mm.summary.length ≤ (mm.run ops).summary.length := by
  induction ops generalizing mm with
  | nil => exact Nat.le_refl _
  | cons op ops ih =>
    exact Nat.le_trans (summary_le_step mm op) (ih (mm.step op))

theorem update_summary_of_ne_nil (mm : MemoryManager) (enc : Option (String → Nat))
    (llm : String → String) (hne : trimHistory enc mm.tokenLimit mm.history ≠ []) :
    mm.update_summary enc llm
      = (⟨mm.windowSize, mm.tokenLimit, [],
            mm.summary ++ "\n"
              ++ (llm (messages_to_string
                    ((trimHistory enc mm.tokenLimit mm.history).map LCMessage.pyDict))).trim
              ++ "\n"⟩,
          some ((llm (messages_to_string
            ((trimHistory enc mm.tokenLimit mm.history).map LCMessage.pyDict))).trim)) := by
  have hni : (trimHistory enc mm.tokenLimit mm.history).isEmpty = false := by
    cases hv : trimHistory enc mm.tokenLimit mm.history with
    | nil => exact absurd hv hne
    | cons a as => rfl
  unfold MemoryManager.update_summary
  dsimp only
  rw [hni]
  simp

/-- Claim C3: the summary's length is monotonically non-decreasing across any
sequence of operations; and whenever `update_summary` actually summarizes
(that is, whenever the history is non-empty, since the trimming loop never
empties a non-empty history), it clears the recent-turns buffer entirely and
appends the new fragment to the summary as a new paragraph, so the buffer is
never left non-empty with the summary unchanged. -/
theorem spec_c3_summary_growth (mm' mm : MemoryManager) (ops : List MemOp)
    (enc : Option (String → Nat)) (llm : String → String) (hexec : mm.history ≠ []) :
    mm'.summary.length ≤ (mm'.run ops).summary.length
    ∧ (mm.update_summary enc llm).1.history = []
    ∧ (∃ fragment, (mm.update_summary enc llm).2 = some fragment
        ∧ (mm.update_summary enc llm).1.summary = mm.summary ++ "\n" ++ fragment ++ "\n"
        ∧ mm.summary.length < (mm.update_summary enc llm).1.summary.length) := by
  refine ⟨summary_monotone mm' ops, ?_⟩
  have hne : trimHistory enc mm.tokenLimit mm.history ≠ [] :=
    trimHistory_ne_nil enc mm.tokenLimit mm.history.length mm.history (Nat.le_refl _) hexec
  rw [update_summary_of_ne_nil mm enc llm hne]
  refine ⟨rfl, _, rfl, rfl, ?_⟩
  have h1 : ("\n" : String).length = 1 := rfl
  simp only [String.length_append, h1]
  omega

theorem spec_c3_witness :
    let mm : MemoryManager :=
      { windowSize := 4, tokenLimit := 2500
        history := [{ role := "user", content := "hi" },
                    { role := "assistant", content := "yo" }]
        summary := "" }
    mm.history ≠ []
    ∧ ((MemoryManager.init 4 2500).summary.length
          ≤ ((MemoryManager.init 4 2500).run []).summary.length
        ∧ (mm.update_summary none fun _ => "S").1.history = []
        ∧ (∃ fragment, (mm.update_summary none fun _ => "S").2 = some fragment
            ∧ (mm.update_summary none fun _ => "S").1.summary
                = mm.summary ++ "\n" ++ fragment ++ "\n"
            ∧ mm.summary.length < (mm.update_summary none fun _ => "S").1.summary.length)) :=
  ⟨by decide,
    spec_c3_summary_growth (MemoryManager.init 4 2500) _ [] none (fun _ => "S") (by decide)⟩

theorem specEvict_eq_trimHistory (enc : Option (String → Nat)) (limit : Nat) :
    ∀ (n : Nat) (h : List Msg), h.length ≤ n →
      specEvict enc limit h = trimHistory enc limit h := by
  intro n
  induction n with
  | zero =>
    intro h hle
    have : h = [] := List.eq_nil_of_length_eq_zero (Nat.le_zero.mp hle)
    subst this
    rw [specEvict, trimHistory]
    simp
  | succ n ih =>
    intro h hle
    rw [specEvict, trimHistory]
    by_cases hc : count_tokens enc (messages_to_string (h.map LCMessage.pyDict)) ≤ limit
    · rw [if_pos hc, if_neg fun hand => absurd hand.1 (Nat.not_lt.mpr hc)]
    · rw [if_neg hc]
      by_cases hlen : h.length ≤ 2
      · rw [if_pos hlen, if_neg fun hand => absurd hand.2 (Nat.not_lt.mpr hlen)]
      · rw [if_neg hlen, if_pos ⟨Nat.not_le.mp hc, Nat.not_le.mp hlen⟩, ← List.drop_one]
        refine ih (h.drop 1) ?_
        simp only [List.length_drop]
        omega

/-- Claim C2: `update_summary` implements exactly the algorithm the spec
describes for `maybe_summarize` — render the recent turns, count tokens with
the tokenizer when available and the word-count × 1.3 fallback otherwise,
evict the oldest single message while over the token budget and more than one
turn-pair (two messages) remains, skip and return nothing when no turns
remain, and otherwise summarize the remaining transcript. Stated as equality
with a second definition written from the spec's words. -/
theorem spec_c2_update_summary_refines (mm : MemoryManager)
    (enc : Option (String → Nat)) (llm : String → String) :
    mm.update_summary enc llm = spec_maybe_summarize enc llm mm := by
  unfold MemoryManager.update_summary spec_maybe_summarize
  dsimp only
  rw [specEvict_eq_trimHistory enc mm.tokenLimit mm.history.length mm.history (Nat.le_refl _)]
  by_cases hnil : trimHistory enc mm.tokenLimit mm.history = []
  · rw [hnil]
    simp
  · have hni : (trimHistory enc mm.tokenLimit mm.history).isEmpty = false := by
      cases hv : trimHistory enc mm.tokenLimit mm.history with
      | nil => exact absurd hv hnil
      | cons a as => rfl
    rw [hni, if_neg hnil]
    simp only [Bool.false_eq_true, if_false]

/-- Claim C1 concerns a code bug: `Chatbot.ask` never records the turn. The
method body only invokes the retrieval/format/prompt/LLM chain and returns;
it never calls `MemoryManager.add_turn` or `MemoryManager.update_summary` (the
`Chatbot` class does not even hold a memory manager, although `main.py`
tries to pass it one). This theorem evaluates the embedded `ask`: the memory
state is returned untouched on every call, and at the concrete failing input
the history is still empty after `ask` returns. -/
theorem spec_c1_ask_never_records_turn :
    (∀ (retrieval : String → List RetrievedResult) (render : RetrievedResult → String)
        (llm : String → String) (sp model : String) (mm : MemoryManager) (q : String),
      (Chatbot.ask retrieval render llm sp model mm q).2 = mm)
    ∧ ((Chatbot.ask (fun _ => []) (fun r => r.content) (fun _ => "A response") "sys"
          "gemini-2.5-flash" (MemoryManager.init 6 2500) "What is X?").2).history = [] :=
  ⟨fun _ _ _ _ _ _ _ => rfl, rfl⟩

/-- Claim C5 concerns a code bug: with zero retrieved chunks the formatted
context is the empty string — there is no "No relevant chunks retrieved"
placeholder — and the assembled LLM input is built from the system prompt, the
formatted chunks and the query only, with no memory context. Evaluated here
with the identity LLM oracle so that the response exhibits the exact assembled
prompt at the failing input. -/
theorem spec_c5_empty_retrieval_context :
    (∀ render : RetrievedResult → String, formatContext render [] = "")
    ∧ (Chatbot.ask (fun _ => []) (fun r => r.content) (fun p => p) "SYS" "m"
        (MemoryManager.init 6 2500) "What is X?").1.response
      = "\n        System instructions:\n        SYS\n\n        Retrieved context:\n        "
        ++ "\n\n        User question:\n        What is X?\n        " :=
  ⟨fun _ => rfl, rfl⟩

/-- Claim C6 concerns a code bug: on a fresh manager `get_combined_context`
does contain the "No summary yet." placeholder and an empty transcript, but
after a turn is recorded the transcript is not role-tagged: `MemoryManager`
stores plain dicts, which `messages_to_string` only knows to render through
its `UNKNOWN (dict)` fallback (no `USER Qn:`/`ASSISTANT:` tags, no separator
lines). Evaluated at a fresh manager and after one `add_turn`. -/
theorem spec_c6_render_context_untagged :
    (MemoryManager.init 6 2500).get_combined_context
      = "Conversation Summary:\nNo summary yet.\n\nRecent Conversation:\n"
    ∧ ((MemoryManager.init 6 2500).add_turn "hi" "hello").get_combined_context
      = "Conversation Summary:\nNo summary yet.\n\nRecent Conversation:\n"
        ++ "UNKNOWN (dict): " ++ dictRepr { role := "user", content := "hi" }
        ++ "\n\n"
        ++ "UNKNOWN (dict): " ++ dictRepr { role := "assistant", content := "hello" } := by
  constructor
  · rfl
  · rfl

/-- Counterexample for claim C7: on an empty input list `ingest_publications`
does not return the count `0`; the Python function is annotated `-> None` and
returns without a value on every path. -/
theorem spec_c7_counterexample :
    ¬ ((ingest_publications (fun s => [s]) (fun ts => ts.map fun _ => [])
        (fun _ _ _ _ s => s) ⟨[]⟩ []).2 = some 0) := by
  decide

/-- Claim C7 as amended: `ingest_publications` returns no value (`None`) on
every input, and on an empty input list it is a no-op that performs no
mutation of the vector store. -/
theorem spec_c7_ingest_amended (splitText : String → List String)
    (embed : List String → List (List ℚ))
    (addChunks : List String → List String → List ChunkMetadata → List (List ℚ) → Store → Store)
    (store : Store) (publications : List Publication) :
    (ingest_publications splitText embed addChunks store publications).2 = none
    ∧ (ingest_publications splitText embed addChunks store []).1 = store := by
  constructor
  · unfold ingest_publications
    split
    · rfl
    · rfl
  · rfl

theorem enumFrom_map_eq_specResults (docs : List String) :
    ∀ (n : Nat) (metadatas : List Metadata) (distances : List ℚ),
      ((List.enumFrom n docs).map fun ic =>
        ({ content := ic.2, metadata := metadatas[ic.1]?.getD ∅,
           similarity := distances[ic.1]?.map fun d => 1 - d } : RetrievedResult))
        = specResults docs (metadatas.drop n) (distances.drop n) := by
  induction docs with
  | nil => intro n metadatas distances; rfl
  | cons c cs ih =>
    intro n metadatas distances
    simp only [List.enumFrom, List.map_cons, specResults]
    congr 1
    · congr 1
      · rw [List.headD_eq_head?_getD, List.head?_drop]
      · rw [List.head?_drop]
    · rw [List.tail_drop, List.tail_drop]
      exact ih (n + 1) metadatas distances

theorem length_specResults (docs : List String) :
    ∀ (metadatas : List Metadata) (distances : List ℚ),
      (specResults docs metadatas distances).length = docs.length := by
  induction docs with
  | nil => intro _ _; rfl
  | cons c cs ih =>
    intro metadatas distances
    simp only [specResults, List.length_cons, ih]

/-- Claim C8: for every store query response whose present fields have the
Chroma shape (a non-empty outer list, one inner list per query vector),
`RAGPipeline.query`'s formatting succeeds and returns one result per returned
document, with similarity `1 - distance` (null when the distance is missing)
and an empty metadata mapping when the metadata entry is missing; in
particular an entirely absent `metadatas`/`distances` key defaults to the
empty inner list (`pyGetFirst none = some []`), so retrieval never fails
solely because optional fields are absent. Stated as equality with a second
definition written from the spec's words. -/
theorem spec_c8_query_formatting (results : QueryResponse) (docs : List String)
    (metadatas : List Metadata) (distances : List ℚ)
    (h1 : pyGetFirst results.documents = some docs)
    (h2 : pyGetFirst results.metadatas = some metadatas)
    (h3 : pyGetFirst results.distances = some distances) :
    formatQueryResults results = some (specResults docs metadatas distances)
    ∧ (specResults docs metadatas distances).length = docs.length := by
  constructor
  · unfold formatQueryResults
    rw [h1, h2, h3]
    show some _ = some _
    congr 1
    have := enumFrom_map_eq_specResults docs 0 metadatas distances
    rw [List.drop_zero, List.drop_zero] at this
    exact this
  · exact length_specResults docs metadatas distances

theorem spec_c8_witness :
    formatQueryResults
        { documents := some [["alpha", "beta"]], metadatas := none,
          distances := some [[(1 : ℚ) / 4]] }
      = some (specResults ["alpha", "beta"] [] [(1 : ℚ) / 4])
    ∧ (specResults ["alpha", "beta"] [] [(1 : ℚ) / 4]).length = ["alpha", "beta"].length :=
  spec_c8_query_formatting
    { documents := some [["alpha", "beta"]], metadatas := none,
      distances := some [[(1 : ℚ) / 4]] }
    ["alpha", "beta"] [] [(1 : ℚ) / 4] rfl rfl rfl

theorem sectionPart_eq_specBlock (l : String) (v : Option PromptValue) :
    sectionPart l v = specBlock l v := by
  cases v with
  | none => rfl
  | some pv =>
    cases pv with
    | str s =>
      by_cases hs : s = ""
      · subst hs; rfl
      · simp [sectionPart, truthyValue, specBlock, format_prompt_section, hs]
    | list items =>
      by_cases hi : items = []
      · subst hi; rfl
      · simp [sectionPart, truthyValue, specBlock, format_prompt_section, hi]

/-- Counterexample for claim C10: the claim's "if and only if the required
role field is missing" is false — a present-but-empty role (`some ""`) is not
missing, yet construction fails because Python's truthiness check `if not
role` rejects it; and a present-but-empty instruction block is silently
omitted rather than introduced by its lead-in sentence. -/
theorem spec_c10_counterexample :
    build_system_prompt_from_config
        { role := some "", instruction := none, output_constraints := none,
          style_or_tone := none, output_format := none } = .error ()
    ∧ ({ role := some "", instruction := none, output_constraints := none,
          style_or_tone := none, output_format := none } : SystemPromptConfig).role ≠ none
    ∧ build_system_prompt_from_config
        { role := some "Helpful assistant", instruction := some (.str ""),
          output_constraints := none, style_or_tone := none, output_format := none }
      = .ok ("You are " ++ lowercase_first_char ("Helpful assistant").trim) := by
  refine ⟨rfl, ?_, rfl⟩
  decide

/-- Claim C10 as amended: building the system prompt fails with `ConfigError`
if and only if the role field is missing or empty; otherwise it produces the
identity sentence (role stripped, first letter lowercased) followed, in fixed
order, by the instruction, constraints, tone and format blocks, each omitted
entirely when absent or empty, each present non-empty block introduced by its
fixed lead-in, list values bulleted, string values verbatim, blocks joined by
blank lines. Stated against a second definition of the blocks written from
the spec's words. -/
theorem spec_c10_prompt_amended (config : SystemPromptConfig) :
    ((build_system_prompt_from_config config).isOk = false
      ↔ (config.role = none ∨ config.role = some ""))
    ∧ (∀ r, config.role = some r → r ≠ "" →
        build_system_prompt_from_config config
          = .ok (String.intercalate "\n\n"
              (("You are " ++ lowercase_first_char r.trim) :: specBlocks config))) := by
  constructor
  · cases hrole : config.role with
    | none =>
        simp [build_system_prompt_from_config, pyTruthyStr, hrole, Except.isOk, Except.toBool]
    | some r =>
      by_cases hr : r = ""
      · subst hr
        simp [build_system_prompt_from_config, pyTruthyStr, hrole, Except.isOk, Except.toBool]
      · simp [build_system_prompt_from_config, pyTruthyStr, hrole, hr, Except.isOk,
          Except.toBool]
  · intro r hrole hr
    unfold build_system_prompt_from_config
    rw [hrole]
    simp only [pyTruthyStr, if_neg hr]
    simp [specBlocks, sectionPart_eq_specBlock]

theorem spec_c10_witness :
    build_system_prompt_from_config
        { role := some "Research assistant", instruction := some (.list ["Be concise"]),
          output_constraints := some (.str "No speculation"), style_or_tone := none,
          output_format := none }
      = .ok (String.intercalate "\n\n"
          (("You are " ++ lowercase_first_char ("Research assistant").trim)
            :: specBlocks
                { role := some "Research assistant",
                  instruction := some (.list ["Be concise"]),
                  output_constraints := some (.str "No speculation"),
                  style_or_tone := none, output_format := none })) :=
  (spec_c10_prompt_amended _).2 "Research assistant" rfl (by decide)

theorem toDigitsCore_append (b : Nat) :
    ∀ (f n : Nat) (l : List Char),
      Nat.toDigitsCore b f n l = Nat.toDigitsCore b f n [] ++ l := by
  intro f
  induction f with
  | zero => intro n l; rfl
  | succ f ih =>
    intro n l
    show (if n / b = 0 then (n % b).digitChar :: l
            else Nat.toDigitsCore b f (n / b) ((n % b).digitChar :: l))
      = (if n / b = 0 then (n % b).digitChar :: ([] : List Char)
            else Nat.toDigitsCore b f (n / b) ((n % b).digitChar :: [])) ++ l
    by_cases h : n / b = 0
    · rw [if_pos h, if_pos h]; rfl
    · rw [if_neg h, if_neg h, ih (n / b) ((n % b).digitChar :: l),
        ih (n / b) ((n % b).digitChar :: [])]
      simp

theorem toDigitsCore_eq_digits :
    ∀ (f n : Nat), n ≠ 0 → n ≤ f →
      Nat.toDigitsCore 10 f n [] = ((Nat.digits 10 n).map Nat.digitChar).reverse := by
  intro f
  induction f with
  | zero => intro n hn hle; omega
  | succ f ih =>
    intro n hn hle
    show (if n / 10 = 0 then (n % 10).digitChar :: ([] : List Char)
            else Nat.toDigitsCore 10 f (n / 10) ((n % 10).digitChar :: [])) = _
    rw [Nat.digits_def' (by norm_num : (1 : Nat) < 10) (Nat.pos_of_ne_zero hn)]
    by_cases h : n / 10 = 0
    · rw [if_pos h, h, Nat.digits_zero]
      rfl
    · rw [if_neg h, toDigitsCore_append 10 f (n / 10) ((n % 10).digitChar :: []),
        ih (n / 10) h (by omega)]
      simp

theorem repr_data_eq_digits (n : Nat) (hn : n ≠ 0) :
    (Nat.repr n).data = ((Nat.digits 10 n).map Nat.digitChar).reverse := by
  show (Nat.toDigitsCore 10 (n + 1) n []) = _
  exact toDigitsCore_eq_digits (n + 1) n hn (Nat.le_succ n)

theorem digitChar_isDigit : ∀ d, d < 10 → (Nat.digitChar d).isDigit = true := by decide

theorem digitChar_inj : ∀ d, d < 10 → ∀ e, e < 10 → Nat.digitChar d = Nat.digitChar e → d = e := by
  decide

theorem repr_chars_are_digits (n : Nat) (c : Char) (hc : c ∈ (Nat.repr n).data) :
    c.isDigit = true := by
  by_cases hn : n = 0
  · subst hn
    have : c = (Char.ofNat 48) := by
      have : (Nat.repr 0).data = [Char.ofNat 48] := rfl
      rw [this] at hc
      simpa using hc
    subst this
    decide
  · rw [repr_data_eq_digits n hn] at hc
    rw [List.mem_reverse] at hc
    obtain ⟨d, hd, rfl⟩ := List.mem_map.mp hc
    exact digitChar_isDigit d (Nat.digits_lt_base (by norm_num) hd)

theorem map_digitChar_inj :
    ∀ (xs ys : List Nat), (∀ x ∈ xs, x < 10) → (∀ y ∈ ys, y < 10) →
      xs.map Nat.digitChar = ys.map Nat.digitChar → xs = ys := by
  intro xs
  induction xs with
  | nil =>
    intro ys _ _ h
    cases ys with
    | nil => rfl
    | cons y ys => simp at h
  | cons x xs ih =>
    intro ys hxs hys h
    cases ys with
    | nil => simp at h
    | cons y ys =>
      simp only [List.map_cons, List.cons.injEq] at h
      have hx : x = y :=
        digitChar_inj x (hxs x (List.mem_cons_self x xs)) y (hys y (List.mem_cons_self y ys)) h.1
      rw [hx, ih ys (fun a ha => hxs a (List.mem_cons_of_mem x ha))
        (fun a ha => hys a (List.mem_cons_of_mem y ha)) h.2]

theorem natRepr_inj : ∀ m n : Nat, Nat.repr m = Nat.repr n → m = n := by
  have hdata : ∀ m n : Nat, Nat.repr m = Nat.repr n → (Nat.repr m).data = (Nat.repr n).data :=
    fun m n h => congrArg String.data h
  have key : ∀ m n : Nat, m ≠ 0 → n ≠ 0 → Nat.repr m = Nat.repr n → m = n := by
    intro m n hm hn h
    have h2 := hdata m n h
    rw [repr_data_eq_digits m hm, repr_data_eq_digits n hn] at h2
    have h3 := List.reverse_injective h2
    have h4 := map_digitChar_inj (Nat.digits 10 m) (Nat.digits 10 n)
      (fun d hd => Nat.digits_lt_base (by norm_num) hd)
      (fun d hd => Nat.digits_lt_base (by norm_num) hd) h3
    calc m = Nat.ofDigits 10 (Nat.digits 10 m) := (Nat.ofDigits_digits 10 m).symm
      _ = Nat.ofDigits 10 (Nat.digits 10 n) := by rw [h4]
      _ = n := Nat.ofDigits_digits 10 n
  have zeroCase : ∀ n : Nat, n ≠ 0 → Nat.repr 0 ≠ Nat.repr n := by
    intro n hn h
    have h2 := hdata 0 n h
    rw [repr_data_eq_digits n hn] at h2
    have h0 : (Nat.repr 0).data = [Nat.digitChar 0] := rfl
    rw [h0] at h2
    have h3 := congrArg List.reverse h2
    rw [List.reverse_reverse,
      (show ([Nat.digitChar 0] : List Char).reverse = [Nat.digitChar 0] from rfl)] at h3
    have h4 : (Nat.digits 10 n).map Nat.digitChar = ([0] : List Nat).map Nat.digitChar := by
      simpa using h3.symm
    have h5 := map_digitChar_inj (Nat.digits 10 n) [0]
      (fun d hd => Nat.digits_lt_base (by norm_num) hd) (by simp) h4
    have h6 : n = Nat.ofDigits 10 (Nat.digits 10 n) := (Nat.ofDigits_digits 10 n).symm
    rw [h5] at h6
    simp [Nat.ofDigits] at h6
    exact hn h6
  intro m n h
  by_cases hm : m = 0
  · subst hm
    by_cases hn : n = 0
    · rw [hn]
    · exact absurd h (zeroCase n hn)
  · by_cases hn : n = 0
    · subst hn
      exact absurd h.symm (zeroCase m hm)
    · exact key m n hm hn h

theorem underscore_not_in_repr (n : Nat) : (Char.ofNat 95) ∉ (Nat.repr n).data := by
  intro hmem
  have := repr_chars_are_digits n (Char.ofNat 95) hmem
  exact absurd this (by decide)

theorem stringDataInj (s t : String) (h : s.data = t.data) : s = t := by
  cases s
  cases t
  exact congrArg String.mk h

theorem sep_mem_of_shorter {α : Type} (sep : α) (a₁ d₁ a₂ d₂ : List α)
    (heq : a₁ ++ sep :: d₁ = a₂ ++ sep :: d₂) (hlt : a₁.length < a₂.length) :
    sep ∈ d₁ := by
  have hd : d₁ = (a₂ ++ sep :: d₂).drop (a₁.length + 1) := by
    have e1 : a₁ ++ sep :: d₁ = (a₁ ++ [sep]) ++ d₁ := by simp
    have e2 : d₁ = ((a₁ ++ [sep]) ++ d₁).drop (a₁ ++ [sep]).length :=
      (List.drop_left (a₁ ++ [sep]) d₁).symm
    rw [e2, ← e1, heq]
    congr 1
    simp
  rw [List.drop_append_of_le_length (by omega : a₁.length + 1 ≤ a₂.length)] at hd
  rw [hd]
  simp

theorem append_sep_inj {α : Type} (sep : α) (a₁ d₁ a₂ d₂ : List α)
    (h₁ : sep ∉ d₁) (h₂ : sep ∉ d₂)
    (heq : a₁ ++ sep :: d₁ = a₂ ++ sep :: d₂) : a₁ = a₂ ∧ d₁ = d₂ := by
  rcases Nat.lt_trichotomy a₁.length a₂.length with hlt | hl | hgt
  · exact absurd (sep_mem_of_shorter sep a₁ d₁ a₂ d₂ heq hlt) h₁
  · obtain ⟨ha, hb⟩ := List.append_inj heq hl
    refine ⟨ha, ?_⟩
    injection hb
  · exact absurd (sep_mem_of_shorter sep a₂ d₂ a₁ d₁ heq.symm hgt) h₂

theorem encodeChunkId_inj (p₁ p₂ : String) (i₁ i₂ : Nat)
    (heq : encodeChunkId p₁ i₁ = encodeChunkId p₂ i₂) : p₁ = p₂ ∧ i₁ = i₂ := by
  have hdata := congrArg String.data heq
  have e : ∀ (p : String) (i : Nat),
      (encodeChunkId p i).data = p.data ++ (Char.ofNat 95) :: (Nat.repr i).data := by
    intro p i
    show (p ++ "_" ++ toString i).data = _
    rw [String.data_append, String.data_append]
    simp only [List.append_assoc]
    rfl
  rw [e p₁ i₁, e p₂ i₂] at hdata
  obtain ⟨hp, hi⟩ := append_sep_inj (Char.ofNat 95) p₁.data (Nat.repr i₁).data p₂.data
    (Nat.repr i₂).data (underscore_not_in_repr i₁) (underscore_not_in_repr i₂) hdata
  exact ⟨stringDataInj p₁ p₂ hp,
    natRepr_inj i₁ i₂ (stringDataInj (Nat.repr i₁) (Nat.repr i₂) hi)⟩

theorem split_publications_cons (splitText : String → List String) (pub : Publication)
    (pubs : List Publication) :
    split_publications splitText (pub :: pubs)
      = ((splitText (pub.publication_description.getD "")).enum.map fun ic =>
          ({ content := ic.2
             metadata :=
               { id := effectiveId pub, username := pub.username, license := pub.license
                 title := pub.title.getD "Untitled"
                 chunk_id := encodeChunkId (effectiveId pub) ic.1 } } : Chunk))
        ++ split_publications splitText pubs := rfl

theorem perPub_chunk_ids (splitText : String → List String) (pub : Publication) :
    (((splitText (pub.publication_description.getD "")).enum.map fun ic =>
        ({ content := ic.2
           metadata :=
             { id := effectiveId pub, username := pub.username, license := pub.license
               title := pub.title.getD "Untitled"
               chunk_id := encodeChunkId (effectiveId pub) ic.1 } } : Chunk)).map
      fun c => c.metadata.chunk_id)
      = (List.range (splitText (pub.publication_description.getD "")).length).map
          (encodeChunkId (effectiveId pub)) := by
  rw [List.map_map, ← List.enum_map_fst (splitText (pub.publication_description.getD "")),
    List.map_map]
  rfl

theorem chunkIds_eq_flatten (splitText : String → List String) (pubs : List Publication) :
    chunkIds splitText pubs
      = (pubs.map fun pub =>
          (List.range (splitText (pub.publication_description.getD "")).length).map
            (encodeChunkId (effectiveId pub))).flatten := by
  induction pubs with
  | nil => rfl
  | cons pub pubs ih =>
    unfold chunkIds
    rw [split_publications_cons, List.map_append]
    show _ ++ chunkIds splitText pubs = _
    rw [ih, perPub_chunk_ids]
    rfl

/-- Counterexample for claim C9: chunk ids are not globally unique for every
input list — two publications with the same (here: both missing, hence both
defaulted to "unknown") id produce colliding chunk ids. -/
theorem spec_c9_counterexample :
    ¬ (chunkIds (fun s => if s = "" then [] else [s])
        [{ id := none, username := none, license := none, title := none,
           publication_description := some "text one" },
         { id := none, username := none, license := none, title := none,
           publication_description := some "text two" }]).Nodup := by
  decide

/-- Claim C9 as amended: `split_publications` assigns each chunk the id
`"\x7bpublication_id\x7d_\x7bsequential_index\x7d"` with indices in order
within each publication; the ids are unique within a publication and, provided
the publications' effective ids (after defaulting missing ids to "unknown")
are pairwise distinct, globally unique across the whole output; and a
publication with an empty description yields zero chunks (given that the
splitter returns no pieces for empty text, as LangChain's splitter does). -/
theorem spec_c9_chunk_ids (splitText : String → List String) (pubs : List Publication)
    (hids : (pubs.map effectiveId).Nodup) (hempty : splitText "" = []) :
    chunkIds splitText pubs
      = (pubs.map fun pub =>
          (List.range (splitText (pub.publication_description.getD "")).length).map
            (encodeChunkId (effectiveId pub))).flatten
    ∧ (chunkIds splitText pubs).Nodup
    ∧ ∀ pub : Publication, pub.publication_description.getD "" = "" →
        split_publications splitText [pub] = [] := by
  refine ⟨chunkIds_eq_flatten splitText pubs, ?_, ?_⟩
  · rw [chunkIds_eq_flatten splitText pubs]
    rw [List.nodup_flatten]
    constructor
    · intro l hl
      obtain ⟨pub, _, rfl⟩ := List.mem_map.mp hl
      exact (List.nodup_range _).map fun i j hij => (encodeChunkId_inj _ _ i j hij).2
    · rw [List.pairwise_map]
      have hpw : pubs.Pairwise fun a b => effectiveId a ≠ effectiveId b := by
        have h : (pubs.map effectiveId).Pairwise (· ≠ ·) := hids
        rw [List.pairwise_map] at h
        exact h
      refine hpw.imp ?_
      intro a b hne x hxa hxb
      obtain ⟨i, _, rfl⟩ := List.mem_map.mp hxa
      obtain ⟨j, _, hj⟩ := List.mem_map.mp hxb
      exact hne (encodeChunkId_inj _ _ _ _ hj.symm).1
  · intro pub hdesc
    rw [split_publications_cons, hdesc, hempty]
    rfl

theorem spec_c9_witness :
    ((([{ id := some "p1", username := none, license := none, title := some "A",
          publication_description := some "Sentence one. Sentence two." }]
        : List Publication).map effectiveId).Nodup
      ∧ (fun s : String => if s = "" then ([] : List String) else [s]) "" = [])
    ∧ ((chunkIds (fun s : String => if s = "" then ([] : List String) else [s])
          [{ id := some "p1", username := none, license := none, title := some "A",
             publication_description := some "Sentence one. Sentence two." }]).Nodup
        ∧ ∀ pub : Publication, pub.publication_description.getD "" = "" →
            split_publications (fun s : String => if s = "" then ([] : List String) else [s])
              [pub] = []) :=
  ⟨⟨by decide, rfl⟩,
    (spec_c9_chunk_ids (fun s : String => if s = "" then ([] : List String) else [s])
      [{ id := some "p1", username := none, license := none, title := some "A",
         publication_description := some "Sentence one. Sentence two." }]
      (by decide) rfl).2⟩

end RAC
